import Mathlib

/-!
Shallow embedding of the release publication and asset reconciliation engine
of `main.go` (the `github-release` command line tool).

The embedding models every network interaction as input drawn from an
explicit environment and records the requests the engine issues as a trace
of `Event`s, so that counting delete calls, upload calls and sleeps is a
function of the run.  Pure control flow (retry counting, backoff doubling,
error classification, the `already_exists` fallback, the per-file loop of
`publishRelease`) is translated directly from the source.
-/

/-- Release asset metadata, mirroring `type Asset struct` (main.go lines 34-40).
Go `int`/`int64` fields are modelled as `Int`; sizes are only ever compared
for equality, so no overflow arithmetic arises. -/
structure Asset where
  id : Int
  name : String
  label : String
  state : String
  size : Int
  deriving Repr, DecidableEq

/-- A GitHub release, mirroring `type Release struct` (main.go lines 43-53). -/
structure Release where
  uploadURL : String
  tagName : String
  branch : String
  name : String
  body : String
  draft : Bool
  prerelease : Bool
  id : Int
  assets : List Asset
  deriving Repr, DecidableEq

/-- A Go `error` value, classified exactly as far as the source inspects it:
the only type assertion in the program is `err.(AssetHasCorrectSizeError)`
(main.go line 281); every other error is an opaque value carrying a message. -/
inductive GoErr where
  | assetHasCorrectSize (asset : Asset)
  | generic (msg : String)
  deriving Repr, DecidableEq

/-- Outcome of one `GET /releases/tags/:tag` request followed by
`json.Unmarshal`, as performed by `getAssetByFilename` (main.go lines 235-244):
either the transport fails (`doRequest` returned an error), or the body fails
to decode, or a release value is obtained. -/
inductive LookupOutcome where
  | transportErr (msg : String)
  | decodeErr (msg : String)
  | release (r : Release)
  deriving Repr, DecidableEq

/-- The requests the engine issues, recorded in order as a trace. -/
inductive Event where
  | createRelease
  | fetchRelease (tag : String)
  | deleteAsset (assetId : Int)
  | sleep (seconds : Nat)
  | upload (url : String) (assetName : String)
  deriving Repr, DecidableEq

/-- Environment for one file's reconciliation loop: iteration `n` of the loop
(`retryCount = n`) sees `lookup n` as the outcome of its release fetch and
`deleteResult n` as the error (if any) of the DELETE request it issues there.
Upload outcomes need no environment input: the loop ignores the result of
`uploadFile` except for logging (main.go lines 300-305). -/
structure FileEnv where
  lookup : Nat → LookupOutcome
  deleteResult : Nat → Option String

/-- Character-list prefix test (`charsStartWith pat cs` : does `cs` start with
`pat`). Helper for the model of Go `bytes.Contains`. -/
def charsStartWith : List Char → List Char → Bool
  | [], _ => true
  | _ :: _, [] => false
  | p :: ps, c :: cs => p == c && charsStartWith ps cs

/-- Does the character list contain `pat` as a contiguous sublist? -/
def charsContain (pat : List Char) : List Char → Bool
  | [] => charsStartWith pat []
  | c :: cs => charsStartWith pat (c :: cs) || charsContain pat cs

/-- Model of Go `bytes.Contains(data, pat)` on the decoded bodies
(main.go line 325). -/
def containsSubstr (s pat : String) : Bool :=
  charsContain pat.toList s.toList

/-- Characters before the first occurrence of `sep` (the whole list when
`sep` is absent). -/
def takeUntilChar (sep : Char) : List Char → List Char
  | [] => []
  | c :: cs => if c == sep then [] else c :: takeUntilChar sep cs

/-- Model of `strings.Split(uploadURL, "\x7b")[0]` (main.go line 343): the
upload-endpoint template truncated at the first template-placeholder brace. -/
def splitUploadURL (u : String) : String :=
  String.mk (takeUntilChar '\x7b' u.toList)

/-- Characters after the last occurrence of `sep` (the whole list when `sep`
is absent). -/
def afterLastChar (sep : Char) : List Char → List Char
  | [] => []
  | c :: cs =>
    let rest := afterLastChar sep cs
    if c == sep then rest
    else if (cs.contains sep) then rest else c :: rest

/-- Model of Go `filepath.Base` restricted to the non-degenerate paths the
engine sees: the final slash-separated component of the path
(main.go lines 184 and 271). -/
def baseName (p : String) : String :=
  String.mk (afterLastChar '/' p.toList)

/-- `getAssetByFilename` (main.go lines 233-261), with the release fetch's
outcome supplied by the environment.  A transport error or a decode error is
returned as-is (an opaque error value); when the decoded release's asset list
has no entry whose name equals `filename`, the function returns the error
built by `fmt.Errorf("could not find asset %s", filename)` — a plain error
value, not a distinguished not-found signal. -/
def getAssetByFilename (o : LookupOutcome) (filename : String) : Except GoErr Asset :=
  match o with
  | LookupOutcome.transportErr msg => Except.error (GoErr.generic msg)
  | LookupOutcome.decodeErr msg => Except.error (GoErr.generic msg)
  | LookupOutcome.release r =>
    match r.assets.find? (fun a => a.name == filename) with
    | some a => Except.ok a
    | none => Except.error (GoErr.generic ("could not find asset " ++ filename))

/-- `deleteAssetWithWrongFileSize` (main.go lines 218-231).  Returns the trace
of requests it issues (the release fetch performed inside
`getAssetByFilename`, plus the DELETE when a wrong-sized asset is found)
together with the Go error result: `none` models `nil`.  `deleteRes` is the
environment's outcome for the DELETE request. -/
def deleteAssetWithWrongFileSize (o : LookupOutcome) (deleteRes : Option String)
    (releaseTag fileName : String) (fileSize : Int) : List Event × Option GoErr :=
  match getAssetByFilename o fileName with
  | Except.error e => ([Event.fetchRelease releaseTag], some e)
  | Except.ok asset =>
    if asset.size == fileSize then
      ([Event.fetchRelease releaseTag], some (GoErr.assetHasCorrectSize asset))
    else
      ([Event.fetchRelease releaseTag, Event.deleteAsset asset.id],
        deleteRes.map GoErr.generic)

/-- The type assertion `err.(AssetHasCorrectSizeError)` (main.go line 281). -/
def isAssetHasCorrectSizeError : Option GoErr → Bool
  | some (GoErr.assetHasCorrectSize _) => true
  | _ => false

/-- Did this release fetch observe an asset named `filename` whose recorded
size equals `fileSize`?  (Exactly the condition under which
`deleteAssetWithWrongFileSize` returns the `AssetHasCorrectSizeError`
sentinel, main.go lines 224-226.) -/
def lookupSeesCorrectSize (o : LookupOutcome) (filename : String) (fileSize : Int) : Bool :=
  match getAssetByFilename o filename with
  | Except.ok a => a.size == fileSize
  | Except.error _ => false

/-- The `for` loop of `uploadFileWithRetry` (main.go lines 276-310), entered
with `retryCount = 0` and `waitTime = 1` (one second).  Each iteration:
runs the verify-or-clear step; breaks with success on the
`AssetHasCorrectSizeError` sentinel; returns the fatal retry-limit error when
`retryCount >= retryLimit`; otherwise doubles and applies the backoff sleep
(on every attempt after the first), issues the upload, and loops with
`retryCount + 1`.

The Go loop needs no fuel: `retryCount` grows by one per iteration and the
limit check bounds it.  `fuel` only makes the recursion structural; it is
called with `retryLimit + 1`, which exceeds the number of iterations the
limit check permits, so the `fuel = 0` branch is unreachable from
`uploadFileWithRetry` (every lemma below carries the invariant
`retryLimit < fuel + retryCount`). -/
def uploadRetryLoop (env : FileEnv) (uploadURL fileName : String) (fileSize : Int)
    (releaseTag : String) (retryLimit : Nat) (fuel retryCount waitTime : Nat) :
    List Event × Except String Unit :=
  let step := deleteAssetWithWrongFileSize (env.lookup retryCount)
    (env.deleteResult retryCount) releaseTag fileName fileSize
  if isAssetHasCorrectSizeError step.2 then
    (step.1, Except.ok ())
  else if retryLimit ≤ retryCount then
    (step.1, Except.error ("Retry limit of " ++ toString retryLimit ++ " reached.\n"))
  else
    match fuel with
    | 0 => (step.1, Except.ok ())
    | fuel' + 1 =>
      let waitTime' := if 0 < retryCount then waitTime * 2 else waitTime
      let sleeps := if 0 < retryCount then [Event.sleep waitTime'] else []
      let rest := uploadRetryLoop env uploadURL fileName fileSize releaseTag retryLimit
        fuel' (retryCount + 1) waitTime'
      (step.1 ++ sleeps ++ Event.upload (uploadURL ++ "?name=" ++ fileName) fileName :: rest.1,
        rest.2)

/-- `uploadFileWithRetry` (main.go lines 263-313).  `statResult` is the
outcome of `os.Stat(filePath)`: on error the function returns it at once
(before the loop); on success it carries the local file's size.  `waitTime`
starts at one second and the loop starts at `retryCount = 0`. -/
def uploadFileWithRetry (env : FileEnv) (uploadURL filePath releaseTag : String)
    (statResult : Except String Int) (retryLimit : Nat) :
    List Event × Except String Unit :=
  match statResult with
  | Except.error e => ([], Except.error e)
  | Except.ok fileSize =>
    uploadRetryLoop env uploadURL (baseName filePath) fileSize releaseTag retryLimit
      (retryLimit + 1) 0 1

/-- Environment for one `publishRelease` run: the POST `/releases` outcome
(body and error), the fallback GET `/releases/tags/:tag` outcome, the JSON
decoder (`json.Unmarshal` applied to a response body, yielding the resulting
`Release` value or a decode error), and each file's loop environment and
`os.Stat` outcome, indexed by the file's position in the input list. -/
structure PublishEnv where
  createBody : String
  createErr : Option String
  fetchBody : String
  fetchErr : Option String
  decode : String → Except String Release
  fileEnv : Nat → FileEnv
  statResult : Nat → Except String Int

/-- The release-resolution half of `publishRelease` (main.go lines 316-339):
POST the release; if that failed and the body contains `already_exists`, fall
back to fetching the existing release by tag; any remaining error is fatal;
finally decode the body into a `Release` (a decode failure is fatal).
`json.Marshal` of the request body cannot fail for this struct and is not
modelled. -/
def resolveRelease (penv : PublishEnv) (release : Release) :
    List Event × Except String Release :=
  if penv.createErr.isSome && containsSubstr penv.createBody "already_exists" then
    match penv.fetchErr with
    | some e => ([Event.createRelease, Event.fetchRelease release.tagName], Except.error e)
    | none =>
      match penv.decode penv.fetchBody with
      | Except.error e =>
        ([Event.createRelease, Event.fetchRelease release.tagName], Except.error e)
      | Except.ok rel =>
        ([Event.createRelease, Event.fetchRelease release.tagName], Except.ok rel)
  else
    match penv.createErr with
    | some e => ([Event.createRelease], Except.error e)
    | none =>
      match penv.decode penv.createBody with
      | Except.error e => ([Event.createRelease], Except.error e)
      | Except.ok rel => ([Event.createRelease], Except.ok rel)

/-- One file's reconciliation inside `publishRelease`'s loop (main.go line
347): `uploadFileWithRetry` with the constant `retryLimit = 5` (line 345),
drawing the file's environment and stat outcome from its position `i`. -/
def reconcileFile (penv : PublishEnv) (uploadURL releaseTag : String) (i : Nat)
    (filePath : String) : List Event × Except String Unit :=
  uploadFileWithRetry (penv.fileEnv i) uploadURL filePath releaseTag (penv.statResult i) 5

/-- The per-file loop of `publishRelease` (main.go lines 345-351): files in
input order; the first fatal error aborts the run (`log.Fatalln`), so no
later file is started. -/
def processFiles (penv : PublishEnv) (uploadURL releaseTag : String) :
    List String → Nat → List Event × Except String Unit
  | [], _ => ([], Except.ok ())
  | filePath :: rest, i =>
    let r := reconcileFile penv uploadURL releaseTag i filePath
    match r.2 with
    | Except.error e => (r.1, Except.error e)
    | Except.ok _ =>
      let r2 := processFiles penv uploadURL releaseTag rest (i + 1)
      (r.1 ++ r2.1, r2.2)

/-- `publishRelease` (main.go lines 315-352): resolve the release, normalize
its upload-endpoint template at the first brace, then reconcile each file in
order with `retryLimit = 5`. -/
def publishRelease (penv : PublishEnv) (release : Release) (filepaths : List String) :
    List Event × Except String Unit :=
  let r := resolveRelease penv release
  match r.2 with
  | Except.error e => (r.1, Except.error e)
  | Except.ok rel =>
    let uploadURL := splitUploadURL rel.uploadURL
    let files := processFiles penv uploadURL rel.tagName filepaths 0
    (r.1 ++ files.1, files.2)

/-- Is this event an upload (a call to `uploadFile`)? -/
def isUploadEvent : Event → Bool
  | Event.upload _ _ => true
  | _ => false

/-- Is this event a DELETE of an asset? -/
def isDeleteEvent : Event → Bool
  | Event.deleteAsset _ => true
  | _ => false

/-- Is this event a release fetch (a verify-or-clear lookup's GET)? -/
def isFetchEvent : Event → Bool
  | Event.fetchRelease _ => true
  | _ => false

/-- Number of upload attempts in a trace. -/
def countUploads (evs : List Event) : Nat := (evs.filter isUploadEvent).length

/-- Number of asset DELETE calls in a trace. -/
def countDeletes (evs : List Event) : Nat := (evs.filter isDeleteEvent).length

/-- Number of release fetches (verify-or-clear lookups) in a trace. -/
def countFetches (evs : List Event) : Nat := (evs.filter isFetchEvent).length

/-- The sleep durations of a trace, in order. -/
def sleepsOf : List Event → List Nat
  | [] => []
  | Event.sleep d :: rest => d :: sleepsOf rest
  | _ :: rest => sleepsOf rest

/-- Every sleep in the trace is immediately followed by an upload: the
backoff is applied before the upload attempt, never after it. -/
def sleepsPrecedeUploads : List Event → Bool
  | [] => true
  | Event.sleep _ :: rest =>
    match rest with
    | Event.upload _ _ :: _ => sleepsPrecedeUploads rest
    | _ => false
  | _ :: rest => sleepsPrecedeUploads rest

/-- The cumulative traces of reconciling `files` starting at position `i`,
ignoring results: used to state what a partially-aborted run has issued. -/
def tracesFrom (penv : PublishEnv) (uploadURL releaseTag : String) :
    Nat → List String → List Event
  | _, [] => []
  | i, f :: rest =>
    (reconcileFile penv uploadURL releaseTag i f).1 ++
      tracesFrom penv uploadURL releaseTag (i + 1) rest

/-! ### Concrete data used by the verification witnesses -/

/-- A concrete release value. -/
def sampleRelease (assets : List Asset) : Release :=
  { uploadURL := "https://uploads.example/repos/o/r/releases/1/assets\x7b?name\x7d",
    tagName := "v1.0", branch := "main", name := "v1.0", body := "",
    draft := false, prerelease := false, id := 1, assets := assets }

/-- A concrete asset value. -/
def sampleAsset (nm : String) (sz : Int) : Asset :=
  { id := 11, name := nm, label := "", state := "uploaded", size := sz }

/-- File environment whose fetched release never has any asset. -/
def envAlwaysMissing : FileEnv :=
  { lookup := fun _ => LookupOutcome.release (sampleRelease []),
    deleteResult := fun _ => none }

/-- File environment where the correct-sized asset appears only at iteration
5 — that is, only after the fifth upload attempt. -/
def envCorrectAtFive : FileEnv :=
  { lookup := fun n =>
      if n = 5 then LookupOutcome.release (sampleRelease [sampleAsset "a.bin" 7])
      else LookupOutcome.release (sampleRelease []),
    deleteResult := fun _ => none }

/-- File environment where iteration 0's release body fails to decode and
iteration 1 observes the correct-sized asset. -/
def envDecodeErrThenCorrect : FileEnv :=
  { lookup := fun n =>
      if n = 0 then LookupOutcome.decodeErr "unexpected end of JSON input"
      else LookupOutcome.release (sampleRelease [sampleAsset "a.bin" 7]),
    deleteResult := fun _ => none }

/-- File environment whose first lookup already observes the correct-sized
asset. -/
def envCorrectAtZero : FileEnv :=
  { lookup := fun _ => LookupOutcome.release (sampleRelease [sampleAsset "a.bin" 7]),
    deleteResult := fun _ => none }

/-- Publish environment: release creation hits the tag-already-exists
conflict, and the fallback fetch succeeds. -/
def penvConflict : PublishEnv :=
  { createBody := "\x7b\"errors\":[\x7b\"code\":\"already_exists\"\x7d]\x7d",
    createErr := some "Github returned an error: 422 Unprocessable Entity",
    fetchBody := "\x7b\"id\":1\x7d", fetchErr := none,
    decode := fun _ => Except.ok (sampleRelease []),
    fileEnv := fun _ => envCorrectAtZero, statResult := fun _ => Except.ok 7 }

/-- Publish environment: release creation fails for a reason other than the
already-exists conflict. -/
def penvOtherFailure : PublishEnv :=
  { createBody := "server error", createErr := some "boom",
    fetchBody := "", fetchErr := none,
    decode := fun _ => Except.ok (sampleRelease []),
    fileEnv := fun _ => envCorrectAtZero, statResult := fun _ => Except.ok 7 }

/-- Publish environment: creation succeeds but its response body fails to
decode. -/
def penvResolverDecode : PublishEnv :=
  { createBody := "garbage", createErr := none, fetchBody := "", fetchErr := none,
    decode := fun _ => Except.error "invalid character g",
    fileEnv := fun _ => envAlwaysMissing, statResult := fun _ => Except.ok 7 }

/-- Publish environment: resolver succeeds; the one file's inspector lookup
hits a decode failure at iteration 0, then sees the correct asset. -/
def penvInspectorDecode : PublishEnv :=
  { createBody := "ok", createErr := none, fetchBody := "", fetchErr := none,
    decode := fun _ => Except.ok (sampleRelease []),
    fileEnv := fun _ => envDecodeErrThenCorrect,
    statResult := fun _ => Except.ok 7 }

/-- Publish environment: resolver succeeds and every file's asset is already
present with the correct size. -/
def penvAllCorrect : PublishEnv :=
  { createBody := "ok", createErr := none, fetchBody := "", fetchErr := none,
    decode := fun _ => Except.ok (sampleRelease [sampleAsset "a.bin" 7]),
    fileEnv := fun _ => envCorrectAtZero, statResult := fun _ => Except.ok 7 }

/-- Publish environment: file 0 reconciles at once, file 1 never converges
(its release never has the asset), file 2 would reconcile at once. -/
def penvOrdering : PublishEnv :=
  { createBody := "ok", createErr := none, fetchBody := "", fetchErr := none,
    decode := fun _ => Except.ok (sampleRelease []),
    fileEnv := fun i => if i = 0 then envCorrectAtZero else envAlwaysMissing,
    statResult := fun _ => Except.ok 7 }

/-! ### Basic lemmas about the verify-or-clear step and trace counting -/

theorem getAssetByFilename_error_generic :
    ∀ (o : LookupOutcome) (fn : String) (e : GoErr),
      getAssetByFilename o fn = Except.error e → ∃ m, e = GoErr.generic m := by
  intro o fn e h
  unfold getAssetByFilename at h
  split at h
  · simp at h; exact ⟨_, h.symm⟩
  · simp at h; exact ⟨_, h.symm⟩
  · split at h
    · simp at h
    · simp at h; exact ⟨_, h.symm⟩

theorem isSentinel_step (o : LookupOutcome) (d : Option String) (tag fn : String) (sz : Int) :
    isAssetHasCorrectSizeError (deleteAssetWithWrongFileSize o d tag fn sz).2
      = lookupSeesCorrectSize o fn sz := by
  unfold deleteAssetWithWrongFileSize lookupSeesCorrectSize
  cases hga : getAssetByFilename o fn with
  | error e =>
    obtain ⟨m, rfl⟩ := getAssetByFilename_error_generic o fn e hga
    simp [isAssetHasCorrectSizeError]
  | ok a =>
    cases hsz : a.size == sz with
    | true => simp [hsz, isAssetHasCorrectSizeError]
    | false =>
      simp [hsz]
      cases d <;> simp [isAssetHasCorrectSizeError]

theorem step_trace (o : LookupOutcome) (d : Option String) (tag fn : String) (sz : Int) :
    (deleteAssetWithWrongFileSize o d tag fn sz).1 = [Event.fetchRelease tag] ∨
    ∃ i, (deleteAssetWithWrongFileSize o d tag fn sz).1
      = [Event.fetchRelease tag, Event.deleteAsset i] := by
  unfold deleteAssetWithWrongFileSize
  cases getAssetByFilename o fn with
  | error e => simp
  | ok a =>
    cases hsz : a.size == sz with
    | true => simp [hsz]
    | false => exact Or.inr ⟨a.id, by simp [hsz]⟩

theorem step_of_correct (o : LookupOutcome) (d : Option String) (tag fn : String) (sz : Int)
    (h : lookupSeesCorrectSize o fn sz = true) :
    ∃ a, deleteAssetWithWrongFileSize o d tag fn sz
        = ([Event.fetchRelease tag], some (GoErr.assetHasCorrectSize a))
      ∧ getAssetByFilename o fn = Except.ok a ∧ a.size = sz := by
  unfold lookupSeesCorrectSize at h
  cases hga : getAssetByFilename o fn with
  | error e => rw [hga] at h; simp at h
  | ok a =>
    rw [hga] at h
    simp at h
    refine ⟨a, ?_, rfl, h⟩
    unfold deleteAssetWithWrongFileSize
    rw [hga]
    simp [h]

@[simp] theorem countUploads_nil : countUploads [] = 0 := rfl

@[simp] theorem countUploads_append (a b : List Event) :
    countUploads (a ++ b) = countUploads a + countUploads b := by
  simp [countUploads, List.filter_append]

@[simp] theorem countFetches_append (a b : List Event) :
    countFetches (a ++ b) = countFetches a + countFetches b := by
  simp [countFetches, List.filter_append]

@[simp] theorem countDeletes_append (a b : List Event) :
    countDeletes (a ++ b) = countDeletes a + countDeletes b := by
  simp [countDeletes, List.filter_append]

@[simp] theorem sleepsOf_append (a b : List Event) :
    sleepsOf (a ++ b) = sleepsOf a ++ sleepsOf b := by
  induction a with
  | nil => rfl
  | cons e rest ih => cases e <;> simp [sleepsOf, ih]

theorem step_counts (o : LookupOutcome) (d : Option String) (tag fn : String) (sz : Int) :
    countUploads (deleteAssetWithWrongFileSize o d tag fn sz).1 = 0 ∧
    countFetches (deleteAssetWithWrongFileSize o d tag fn sz).1 = 1 ∧
    sleepsOf (deleteAssetWithWrongFileSize o d tag fn sz).1 = [] := by
  rcases step_trace o d tag fn sz with h | ⟨i, h⟩ <;>
    simp [h, countUploads, countFetches, sleepsOf, isUploadEvent, isFetchEvent]

/-! ### Shape lemmas for the reconciliation loop -/

theorem uploadRetryLoop_break (env : FileEnv) (url fn : String) (sz : Int) (tag : String)
    (limit fuel c w : Nat) (h : lookupSeesCorrectSize (env.lookup c) fn sz = true) :
    uploadRetryLoop env url fn sz tag limit fuel c w
      = ([Event.fetchRelease tag], Except.ok ()) := by
  obtain ⟨a, hstep, -, -⟩ := step_of_correct (env.lookup c) (env.deleteResult c) tag fn sz h
  rw [uploadRetryLoop.eq_def]
  simp [hstep, isAssetHasCorrectSizeError]

theorem uploadRetryLoop_fatal (env : FileEnv) (url fn : String) (sz : Int) (tag : String)
    (limit fuel c w : Nat) (h : lookupSeesCorrectSize (env.lookup c) fn sz = false)
    (hc : limit ≤ c) :
    uploadRetryLoop env url fn sz tag limit fuel c w
      = ((deleteAssetWithWrongFileSize (env.lookup c) (env.deleteResult c) tag fn sz).1,
         Except.error ("Retry limit of " ++ toString limit ++ " reached.\n")) := by
  rw [uploadRetryLoop.eq_def]
  simp [isSentinel_step, h, hc]

theorem uploadRetryLoop_continue (env : FileEnv) (url fn : String) (sz : Int) (tag : String)
    (limit fuel c w : Nat) (h : lookupSeesCorrectSize (env.lookup c) fn sz = false)
    (hc : c < limit) :
    uploadRetryLoop env url fn sz tag limit (fuel + 1) c w
      = ((deleteAssetWithWrongFileSize (env.lookup c) (env.deleteResult c) tag fn sz).1
          ++ (if 0 < c then [Event.sleep (w * 2)] else [])
          ++ Event.upload (url ++ "?name=" ++ fn) fn
            :: (uploadRetryLoop env url fn sz tag limit fuel (c + 1)
                (if 0 < c then w * 2 else w)).1,
         (uploadRetryLoop env url fn sz tag limit fuel (c + 1)
             (if 0 < c then w * 2 else w)).2) := by
  have hc' : ¬ limit ≤ c := by omega
  rw [uploadRetryLoop.eq_def]
  simp [isSentinel_step, h, hc']
  by_cases h0 : 0 < c <;> simp [h0]

@[simp] theorem countFetches_nil : countFetches [] = 0 := rfl

@[simp] theorem countDeletes_nil : countDeletes [] = 0 := rfl

@[simp] theorem sleepsOf_nil : sleepsOf [] = [] := rfl

@[simp] theorem countUploads_cons_create (l : List Event) :
    countUploads (Event.createRelease :: l) = countUploads l := by
  simp [countUploads, isUploadEvent]

@[simp] theorem countUploads_cons_fetch (t : String) (l : List Event) :
    countUploads (Event.fetchRelease t :: l) = countUploads l := by
  simp [countUploads, isUploadEvent]

@[simp] theorem countUploads_cons_delete (i : Int) (l : List Event) :
    countUploads (Event.deleteAsset i :: l) = countUploads l := by
  simp [countUploads, isUploadEvent]

@[simp] theorem countUploads_cons_sleep (d : Nat) (l : List Event) :
    countUploads (Event.sleep d :: l) = countUploads l := by
  simp [countUploads, isUploadEvent]

@[simp] theorem countUploads_cons_upload (u n : String) (l : List Event) :
    countUploads (Event.upload u n :: l) = countUploads l + 1 := by
  simp [countUploads, isUploadEvent, List.filter_cons]

@[simp] theorem countFetches_cons_create (l : List Event) :
    countFetches (Event.createRelease :: l) = countFetches l := by
  simp [countFetches, isFetchEvent]

@[simp] theorem countFetches_cons_fetch (t : String) (l : List Event) :
    countFetches (Event.fetchRelease t :: l) = countFetches l + 1 := by
  simp [countFetches, isFetchEvent, List.filter_cons]

@[simp] theorem countFetches_cons_delete (i : Int) (l : List Event) :
    countFetches (Event.deleteAsset i :: l) = countFetches l := by
  simp [countFetches, isFetchEvent]

@[simp] theorem countFetches_cons_sleep (d : Nat) (l : List Event) :
    countFetches (Event.sleep d :: l) = countFetches l := by
  simp [countFetches, isFetchEvent]

@[simp] theorem countFetches_cons_upload (u n : String) (l : List Event) :
    countFetches (Event.upload u n :: l) = countFetches l := by
  simp [countFetches, isFetchEvent]

@[simp] theorem countDeletes_cons_create (l : List Event) :
    countDeletes (Event.createRelease :: l) = countDeletes l := by
  simp [countDeletes, isDeleteEvent]

@[simp] theorem countDeletes_cons_fetch (t : String) (l : List Event) :
    countDeletes (Event.fetchRelease t :: l) = countDeletes l := by
  simp [countDeletes, isDeleteEvent]

@[simp] theorem countDeletes_cons_delete (i : Int) (l : List Event) :
    countDeletes (Event.deleteAsset i :: l) = countDeletes l + 1 := by
  simp [countDeletes, isDeleteEvent, List.filter_cons]

@[simp] theorem countDeletes_cons_sleep (d : Nat) (l : List Event) :
    countDeletes (Event.sleep d :: l) = countDeletes l := by
  simp [countDeletes, isDeleteEvent]

@[simp] theorem countDeletes_cons_upload (u n : String) (l : List Event) :
    countDeletes (Event.upload u n :: l) = countDeletes l := by
  simp [countDeletes, isDeleteEvent]

@[simp] theorem sleepsOf_cons_create (l : List Event) :
    sleepsOf (Event.createRelease :: l) = sleepsOf l := rfl

@[simp] theorem sleepsOf_cons_fetch (t : String) (l : List Event) :
    sleepsOf (Event.fetchRelease t :: l) = sleepsOf l := rfl

@[simp] theorem sleepsOf_cons_delete (i : Int) (l : List Event) :
    sleepsOf (Event.deleteAsset i :: l) = sleepsOf l := rfl

@[simp] theorem sleepsOf_cons_sleep (d : Nat) (l : List Event) :
    sleepsOf (Event.sleep d :: l) = d :: sleepsOf l := rfl

@[simp] theorem sleepsOf_cons_upload (u n : String) (l : List Event) :
    sleepsOf (Event.upload u n :: l) = sleepsOf l := rfl

/-! ### Inductive lemmas about the reconciliation loop -/

/-- At any point of the loop, the trace so far contains exactly one more
release fetch than upload attempts: every iteration opens with a
verify-or-clear lookup and only the non-terminal iterations upload. -/
theorem loop_fetch_count (env : FileEnv) (url fn : String) (sz : Int) (tag : String)
    (limit : Nat) :
    ∀ fuel c w, limit < fuel + c →
      countFetches (uploadRetryLoop env url fn sz tag limit fuel c w).1
        = countUploads (uploadRetryLoop env url fn sz tag limit fuel c w).1 + 1 := by
  intro fuel
  induction fuel with
  | zero =>
    intro c w hf
    cases hcor : lookupSeesCorrectSize (env.lookup c) fn sz with
    | true =>
      rw [uploadRetryLoop_break env url fn sz tag limit 0 c w hcor]
      simp
    | false =>
      rw [uploadRetryLoop_fatal env url fn sz tag limit 0 c w hcor (by omega)]
      obtain ⟨hu, hfe, -⟩ := step_counts (env.lookup c) (env.deleteResult c) tag fn sz
      simp [hu, hfe]
  | succ fuel ih =>
    intro c w hf
    cases hcor : lookupSeesCorrectSize (env.lookup c) fn sz with
    | true =>
      rw [uploadRetryLoop_break env url fn sz tag limit (fuel + 1) c w hcor]
      simp
    | false =>
      by_cases hc : limit ≤ c
      · rw [uploadRetryLoop_fatal env url fn sz tag limit (fuel + 1) c w hcor hc]
        obtain ⟨hu, hfe, -⟩ := step_counts (env.lookup c) (env.deleteResult c) tag fn sz
        simp [hu, hfe]
      · have hclt : c < limit := by omega
        rw [uploadRetryLoop_continue env url fn sz tag limit fuel c w hcor hclt]
        obtain ⟨hu, hfe, -⟩ := step_counts (env.lookup c) (env.deleteResult c) tag fn sz
        have ihx := ih (c + 1) (if 0 < c then w * 2 else w) (by omega)
        by_cases h0 : 0 < c <;> simp [h0, hu, hfe] at ihx ⊢ <;> omega

/-- Termination invariant of the loop: from any loop state, either it returns
success and the lookup of its final iteration (index `c` plus the number of
uploads performed) observed an asset of exactly the expected size, or it
returns an error having performed exactly `limit - c` further uploads. -/
theorem loop_invariant (env : FileEnv) (url fn : String) (sz : Int) (tag : String)
    (limit : Nat) :
    ∀ fuel c w, limit < fuel + c →
      ((uploadRetryLoop env url fn sz tag limit fuel c w).2 = Except.ok () ∧
        ∃ a, getAssetByFilename
            (env.lookup (c + countUploads (uploadRetryLoop env url fn sz tag limit fuel c w).1)) fn
          = Except.ok a ∧ a.size = sz)
      ∨ (∃ e, (uploadRetryLoop env url fn sz tag limit fuel c w).2 = Except.error e ∧
          countUploads (uploadRetryLoop env url fn sz tag limit fuel c w).1 = limit - c) := by
  intro fuel
  induction fuel with
  | zero =>
    intro c w hf
    cases hcor : lookupSeesCorrectSize (env.lookup c) fn sz with
    | true =>
      left
      rw [uploadRetryLoop_break env url fn sz tag limit 0 c w hcor]
      obtain ⟨a, -, hga, hsz⟩ :=
        step_of_correct (env.lookup c) (env.deleteResult c) tag fn sz hcor
      exact ⟨rfl, a, by simpa using hga, hsz⟩
    | false =>
      right
      rw [uploadRetryLoop_fatal env url fn sz tag limit 0 c w hcor (by omega)]
      obtain ⟨hu, -, -⟩ := step_counts (env.lookup c) (env.deleteResult c) tag fn sz
      exact ⟨_, rfl, by simp [hu]; omega⟩
  | succ fuel ih =>
    intro c w hf
    cases hcor : lookupSeesCorrectSize (env.lookup c) fn sz with
    | true =>
      left
      rw [uploadRetryLoop_break env url fn sz tag limit (fuel + 1) c w hcor]
      obtain ⟨a, -, hga, hsz⟩ :=
        step_of_correct (env.lookup c) (env.deleteResult c) tag fn sz hcor
      exact ⟨rfl, a, by simpa using hga, hsz⟩
    | false =>
      by_cases hc : limit ≤ c
      · right
        rw [uploadRetryLoop_fatal env url fn sz tag limit (fuel + 1) c w hcor hc]
        obtain ⟨hu, -, -⟩ := step_counts (env.lookup c) (env.deleteResult c) tag fn sz
        exact ⟨_, rfl, by simp [hu]; omega⟩
      · have hclt : c < limit := by omega
        rw [uploadRetryLoop_continue env url fn sz tag limit fuel c w hcor hclt]
        obtain ⟨hu, -, -⟩ := step_counts (env.lookup c) (env.deleteResult c) tag fn sz
        have ihx := ih (c + 1) (if 0 < c then w * 2 else w) (by omega)
        rcases ihx with ⟨hok, a, hga, hsz⟩ | ⟨e, herr, hcnt⟩
        · left
          refine ⟨by simpa using hok, a, ?_, hsz⟩
          by_cases h0 : 0 < c <;>
            simp [h0, hu] at hga ⊢ <;>
            simpa [Nat.add_left_comm, Nat.add_comm, Nat.add_assoc] using hga
        · right
          refine ⟨e, by simpa using herr, ?_⟩
          by_cases h0 : 0 < c <;> simp [h0, hu] at hcnt ⊢ <;> omega

/-- When no verify-or-clear lookup ever observes a correct-sized asset, the
loop runs its full retry budget: from state `c ≤ limit` it performs exactly
`limit - c` further uploads and then returns the fatal retry-limit error. -/
theorem loop_always_fail (env : FileEnv) (url fn : String) (sz : Int) (tag : String)
    (limit : Nat) (hFail : ∀ n, lookupSeesCorrectSize (env.lookup n) fn sz = false) :
    ∀ fuel c w, limit < fuel + c → c ≤ limit →
      (uploadRetryLoop env url fn sz tag limit fuel c w).2
          = Except.error ("Retry limit of " ++ toString limit ++ " reached.\n") ∧
      countUploads (uploadRetryLoop env url fn sz tag limit fuel c w).1 = limit - c := by
  intro fuel
  induction fuel with
  | zero => intro c w hf hcl; omega
  | succ fuel ih =>
    intro c w hf hcl
    by_cases hc : limit ≤ c
    · rw [uploadRetryLoop_fatal env url fn sz tag limit (fuel + 1) c w (hFail c) hc]
      obtain ⟨hu, -, -⟩ := step_counts (env.lookup c) (env.deleteResult c) tag fn sz
      exact ⟨rfl, by simp [hu]; omega⟩
    · have hclt : c < limit := by omega
      rw [uploadRetryLoop_continue env url fn sz tag limit fuel c w (hFail c) hclt]
      obtain ⟨hu, -, -⟩ := step_counts (env.lookup c) (env.deleteResult c) tag fn sz
      have ihx := ih (c + 1) (if 0 < c then w * 2 else w) (by omega) (by omega)
      refine ⟨by simpa using ihx.1, ?_⟩
      have hcnt := ihx.2
      by_cases h0 : 0 < c <;> simp [h0, hu] at hcnt ⊢ <;> omega

/-- The sleeps issued from a loop state with `retryCount = c ≥ 1` and current
backoff `w` double starting from `w * 2`: one sleep per upload performed. -/
theorem loop_sleeps_from_one (env : FileEnv) (url fn : String) (sz : Int) (tag : String)
    (limit : Nat) :
    ∀ fuel c w, limit < fuel + c → 1 ≤ c →
      sleepsOf (uploadRetryLoop env url fn sz tag limit fuel c w).1
        = (List.range (countUploads (uploadRetryLoop env url fn sz tag limit fuel c w).1)).map
            (fun i => w * 2 ^ (i + 1)) := by
  intro fuel
  induction fuel with
  | zero =>
    intro c w hf h1
    cases hcor : lookupSeesCorrectSize (env.lookup c) fn sz with
    | true =>
      rw [uploadRetryLoop_break env url fn sz tag limit 0 c w hcor]
      simp
    | false =>
      rw [uploadRetryLoop_fatal env url fn sz tag limit 0 c w hcor (by omega)]
      obtain ⟨hu, -, hs⟩ := step_counts (env.lookup c) (env.deleteResult c) tag fn sz
      simp [hu, hs]
  | succ fuel ih =>
    intro c w hf h1
    cases hcor : lookupSeesCorrectSize (env.lookup c) fn sz with
    | true =>
      rw [uploadRetryLoop_break env url fn sz tag limit (fuel + 1) c w hcor]
      simp
    | false =>
      by_cases hc : limit ≤ c
      · rw [uploadRetryLoop_fatal env url fn sz tag limit (fuel + 1) c w hcor hc]
        obtain ⟨hu, -, hs⟩ := step_counts (env.lookup c) (env.deleteResult c) tag fn sz
        simp [hu, hs]
      · have hclt : c < limit := by omega
        rw [uploadRetryLoop_continue env url fn sz tag limit fuel c w hcor hclt]
        obtain ⟨hu, -, hs⟩ := step_counts (env.lookup c) (env.deleteResult c) tag fn sz
        have h0 : 0 < c := h1
        have ihx := ih (c + 1) (w * 2) (by omega) (by omega)
        simp only [h0, if_pos] at *
        simp [hu, hs, ihx, List.range_succ_eq_map]
        intro i hi
        ring

/-- Shape of the unreachable fuel-exhaustion branch (only entered when
`fuel + retryCount ≤ limit`, which `uploadFileWithRetry`'s call precludes). -/
theorem uploadRetryLoop_fuelZero (env : FileEnv) (url fn : String) (sz : Int) (tag : String)
    (limit c w : Nat) (h : lookupSeesCorrectSize (env.lookup c) fn sz = false)
    (hc : c < limit) :
    uploadRetryLoop env url fn sz tag limit 0 c w
      = ((deleteAssetWithWrongFileSize (env.lookup c) (env.deleteResult c) tag fn sz).1,
         Except.ok ()) := by
  have hc' : ¬ limit ≤ c := by omega
  rw [uploadRetryLoop.eq_def]
  simp [isSentinel_step, h, hc']

/-- From the loop's entry state (`retryCount = 0`, backoff `w`): no sleep
precedes the first upload, and the sleeps double starting from `w * 2`:
if the run performs `u` uploads it sleeps `u - 1` times, the `i`-th sleep
(0-based) lasting `w * 2 ^ (i + 1)` time units. -/
theorem loop_sleeps_top (env : FileEnv) (url fn : String) (sz : Int) (tag : String)
    (limit : Nat) :
    ∀ fuel w, limit < fuel →
      sleepsOf (uploadRetryLoop env url fn sz tag limit fuel 0 w).1
        = (List.range
              (countUploads (uploadRetryLoop env url fn sz tag limit fuel 0 w).1 - 1)).map
            (fun i => w * 2 ^ (i + 1)) := by
  intro fuel w hf
  cases hcor : lookupSeesCorrectSize (env.lookup 0) fn sz with
  | true =>
    rw [uploadRetryLoop_break env url fn sz tag limit fuel 0 w hcor]
    simp
  | false =>
    by_cases hc : limit ≤ 0
    · rw [uploadRetryLoop_fatal env url fn sz tag limit fuel 0 w hcor hc]
      obtain ⟨hu, -, hs⟩ := step_counts (env.lookup 0) (env.deleteResult 0) tag fn sz
      simp [hu, hs]
    · have hclt : 0 < limit := by omega
      cases fuel with
      | zero => omega
      | succ fuel =>
        rw [uploadRetryLoop_continue env url fn sz tag limit fuel 0 w hcor hclt]
        obtain ⟨hu, -, hs⟩ := step_counts (env.lookup 0) (env.deleteResult 0) tag fn sz
        have hrest := loop_sleeps_from_one env url fn sz tag limit fuel 1 w (by omega) (by omega)
        simp [hu, hs, hrest]

theorem sleepsPrecedeUploads_step (o : LookupOutcome) (d : Option String) (tag fn : String)
    (sz : Int) :
    sleepsPrecedeUploads (deleteAssetWithWrongFileSize o d tag fn sz).1 = true := by
  rcases step_trace o d tag fn sz with h | ⟨i, h⟩ <;> simp [h, sleepsPrecedeUploads]

/-- Every sleep the loop issues is immediately followed by an upload attempt:
the backoff is applied before the upload, never after it. -/
theorem loop_sleeps_precede (env : FileEnv) (url fn : String) (sz : Int) (tag : String)
    (limit : Nat) :
    ∀ fuel c w,
      sleepsPrecedeUploads (uploadRetryLoop env url fn sz tag limit fuel c w).1 = true := by
  intro fuel
  induction fuel with
  | zero =>
    intro c w
    cases hcor : lookupSeesCorrectSize (env.lookup c) fn sz with
    | true =>
      rw [uploadRetryLoop_break env url fn sz tag limit 0 c w hcor]
      simp [sleepsPrecedeUploads]
    | false =>
      by_cases hc : limit ≤ c
      · rw [uploadRetryLoop_fatal env url fn sz tag limit 0 c w hcor hc]
        exact sleepsPrecedeUploads_step (env.lookup c) (env.deleteResult c) tag fn sz
      · rw [uploadRetryLoop_fuelZero env url fn sz tag limit c w hcor (by omega)]
        exact sleepsPrecedeUploads_step (env.lookup c) (env.deleteResult c) tag fn sz
  | succ fuel ih =>
    intro c w
    cases hcor : lookupSeesCorrectSize (env.lookup c) fn sz with
    | true =>
      rw [uploadRetryLoop_break env url fn sz tag limit (fuel + 1) c w hcor]
      simp [sleepsPrecedeUploads]
    | false =>
      by_cases hc : limit ≤ c
      · rw [uploadRetryLoop_fatal env url fn sz tag limit (fuel + 1) c w hcor hc]
        exact sleepsPrecedeUploads_step (env.lookup c) (env.deleteResult c) tag fn sz
      · have hclt : c < limit := by omega
        rw [uploadRetryLoop_continue env url fn sz tag limit fuel c w hcor hclt]
        rcases step_trace (env.lookup c) (env.deleteResult c) tag fn sz with h | ⟨i, h⟩ <;>
          by_cases h0 : 0 < c <;>
          simp [h, h0, sleepsPrecedeUploads, ih]

/-! ### Lemmas about the resolver and the per-file loop of publishRelease -/

/-- The resolver only issues the create POST and possibly the fallback fetch:
it never deletes an asset and never uploads. -/
theorem resolveRelease_counts (penv : PublishEnv) (rel : Release) :
    countDeletes (resolveRelease penv rel).1 = 0 ∧
    countUploads (resolveRelease penv rel).1 = 0 := by
  unfold resolveRelease
  split
  · cases penv.fetchErr with
    | some e => simp
    | none => cases penv.decode penv.fetchBody <;> simp
  · cases penv.createErr with
    | some e => simp
    | none => cases penv.decode penv.createBody <;> simp

/-- A file whose very first verify lookup observes the correct size is
reconciled with a single release fetch: no delete, no upload. -/
theorem uploadFileWithRetry_first_correct (env : FileEnv) (url path tag : String)
    (sz : Int) (limit : Nat)
    (h : lookupSeesCorrectSize (env.lookup 0) (baseName path) sz = true) :
    uploadFileWithRetry env url path tag (Except.ok sz) limit
      = ([Event.fetchRelease tag], Except.ok ()) := by
  unfold uploadFileWithRetry
  exact uploadRetryLoop_break env url (baseName path) sz tag limit (limit + 1) 0 1 h

@[simp] theorem countDeletes_map_fetch (tag : String) (files : List String) :
    countDeletes (files.map (fun _ => Event.fetchRelease tag)) = 0 := by
  induction files with
  | nil => rfl
  | cons f r ih => simpa using ih

@[simp] theorem countUploads_map_fetch (tag : String) (files : List String) :
    countUploads (files.map (fun _ => Event.fetchRelease tag)) = 0 := by
  induction files with
  | nil => rfl
  | cons f r ih => simpa using ih

/-- When every file's first verify lookup observes the correct size, the
per-file loop of `publishRelease` issues exactly one release fetch per file
and succeeds. -/
theorem processFiles_all_correct (penv : PublishEnv) (url tag : String) :
    ∀ (files : List String) (i0 : Nat),
      (∀ i f, files[i]? = some f → ∃ sz a,
          penv.statResult (i0 + i) = Except.ok sz ∧
          getAssetByFilename ((penv.fileEnv (i0 + i)).lookup 0) (baseName f) = Except.ok a ∧
          a.size = sz) →
      processFiles penv url tag files i0
        = (files.map (fun _ => Event.fetchRelease tag), Except.ok ()) := by
  intro files
  induction files with
  | nil => intro i0 h; rfl
  | cons f rest ih =>
    intro i0 h
    obtain ⟨sz, a, hstat, hga, hsz⟩ := h 0 f (by simp)
    simp only [Nat.add_zero] at hstat hga
    have hcor : lookupSeesCorrectSize ((penv.fileEnv i0).lookup 0) (baseName f) sz = true := by
      unfold lookupSeesCorrectSize
      rw [hga]
      simp [hsz]
    have hfile : reconcileFile penv url tag i0 f = ([Event.fetchRelease tag], Except.ok ()) := by
      unfold reconcileFile
      rw [hstat]
      exact uploadFileWithRetry_first_correct (penv.fileEnv i0) url f tag sz 5 hcor
    have hshift : ∀ i f2, rest[i]? = some f2 → ∃ sz2 a2,
        penv.statResult (i0 + 1 + i) = Except.ok sz2 ∧
        getAssetByFilename ((penv.fileEnv (i0 + 1 + i)).lookup 0) (baseName f2) = Except.ok a2 ∧
        a2.size = sz2 := by
      intro i f2 hf2
      have hx := h (i + 1) f2 (by simpa using hf2)
      have e : i0 + (i + 1) = i0 + 1 + i := by omega
      rwa [e] at hx
    unfold processFiles
    simp [hfile, ih (i0 + 1) hshift]

/-- General success shape of the per-file loop: when every file reconciles
successfully, the trace is the concatenation of the per-file traces. -/
theorem processFiles_ok (penv : PublishEnv) (url tag : String) :
    ∀ (files : List String) (i0 : Nat),
      (∀ i f, files[i]? = some f →
        (reconcileFile penv url tag (i0 + i) f).2 = Except.ok ()) →
      processFiles penv url tag files i0
        = (tracesFrom penv url tag i0 files, Except.ok ()) := by
  intro files
  induction files with
  | nil => intro i0 h; rfl
  | cons f rest ih =>
    intro i0 h
    have h0 := h 0 f (by simp)
    simp only [Nat.add_zero] at h0
    have hshift : ∀ i f2, rest[i]? = some f2 →
        (reconcileFile penv url tag (i0 + 1 + i) f2).2 = Except.ok () := by
      intro i f2 hf2
      have hx := h (i + 1) f2 (by simpa using hf2)
      have e : i0 + (i + 1) = i0 + 1 + i := by omega
      rwa [e] at hx
    unfold processFiles
    simp [tracesFrom, h0, ih (i0 + 1) hshift]

/-- Abort shape of the per-file loop: files before the failing one are fully
reconciled in order, the failing file's error aborts, and no later file
contributes anything to the trace. -/
theorem processFiles_abort (penv : PublishEnv) (url tag : String) :
    ∀ (pre : List String) (i0 : Nat) (b : String) (post : List String) (e : String),
      (∀ i f, pre[i]? = some f →
        (reconcileFile penv url tag (i0 + i) f).2 = Except.ok ()) →
      (reconcileFile penv url tag (i0 + pre.length) b).2 = Except.error e →
      processFiles penv url tag (pre ++ b :: post) i0
        = (tracesFrom penv url tag i0 pre ++ (reconcileFile penv url tag (i0 + pre.length) b).1,
           Except.error e) := by
  intro pre
  induction pre with
  | nil =>
    intro i0 b post e hok hb
    simp only [List.length_nil, Nat.add_zero] at hb
    unfold processFiles
    simp [hb, tracesFrom]
  | cons f rest ih =>
    intro i0 b post e hok hb
    have h0 := hok 0 f (by simp)
    simp only [Nat.add_zero] at h0
    have hshift : ∀ i f2, rest[i]? = some f2 →
        (reconcileFile penv url tag (i0 + 1 + i) f2).2 = Except.ok () := by
      intro i f2 hf2
      have hx := hok (i + 1) f2 (by simpa using hf2)
      have e2 : i0 + (i + 1) = i0 + 1 + i := by omega
      rwa [e2] at hx
    have hb2 : (reconcileFile penv url tag (i0 + 1 + rest.length) b).2 = Except.error e := by
      have e2 : i0 + (f :: rest).length = i0 + 1 + rest.length := by simp; omega
      rwa [e2] at hb
    have hrec := ih (i0 + 1) b post e hshift hb2
    simp only [List.cons_append]
    unfold processFiles
    simp only [h0, hrec, tracesFrom]
    simp [List.append_assoc]
    have e3 : i0 + (rest.length + 1) = i0 + 1 + rest.length := by omega
    rw [e3]

/-! ### Claim theorems -/

/-- C1: At termination of `uploadFileWithRetry` for a file, either it returns
success and the last verify-or-clear lookup observed an asset whose recorded
size equals the local file's size, or it returns a fatal error, its upload
attempts bounded by the retry limit and over (the function has returned, so
no further uploads happen for that file); success is returned on no other
path. -/
theorem uploadFileWithRetry_invariant (env : FileEnv) (url path tag : String)
    (stat : Except String Int) (limit : Nat) :
    ((uploadFileWithRetry env url path tag stat limit).2 = Except.ok () ∧
      ∃ sz a, stat = Except.ok sz ∧
        getAssetByFilename
            (env.lookup (countUploads (uploadFileWithRetry env url path tag stat limit).1))
            (baseName path)
          = Except.ok a ∧ a.size = sz)
    ∨ (∃ e, (uploadFileWithRetry env url path tag stat limit).2 = Except.error e ∧
        countUploads (uploadFileWithRetry env url path tag stat limit).1 ≤ limit) := by
  cases stat with
  | error e =>
    right
    exact ⟨e, rfl, by simp [uploadFileWithRetry]⟩
  | ok sz =>
    have hred : uploadFileWithRetry env url path tag (Except.ok sz) limit
        = uploadRetryLoop env url (baseName path) sz tag limit (limit + 1) 0 1 := rfl
    rw [hred]
    have h := loop_invariant env url (baseName path) sz tag limit (limit + 1) 0 1 (by omega)
    rcases h with ⟨hok, a, hga, hsz⟩ | ⟨e, herr, hcnt⟩
    · left
      exact ⟨hok, sz, a, rfl, by simpa using hga, hsz⟩
    · right
      exact ⟨e, herr, by omega⟩

/-- C2: If the verify step never observes a correct-sized asset (in
particular, when every upload attempt fails to produce one), then
`uploadFileWithRetry` on an existing file with `retryLimit = 5` performs
exactly 5 upload attempts and returns the fatal retry-limit error — never
more than 5 uploads. -/
theorem uploadFileWithRetry_retry_bound (env : FileEnv) (url path tag : String) (sz : Int)
    (hFail : ∀ n, lookupSeesCorrectSize (env.lookup n) (baseName path) sz = false) :
    countUploads (uploadFileWithRetry env url path tag (Except.ok sz) 5).1 = 5 ∧
    (uploadFileWithRetry env url path tag (Except.ok sz) 5).2
      = Except.error ("Retry limit of " ++ toString 5 ++ " reached.\n") := by
  have h := loop_always_fail env url (baseName path) sz tag 5 hFail 6 0 1 (by omega) (by omega)
  unfold uploadFileWithRetry
  exact ⟨by simpa using h.2, h.1⟩

theorem uploadFileWithRetry_retry_bound_witness :
    (∀ n, lookupSeesCorrectSize (envAlwaysMissing.lookup n) (baseName "dist/a.bin") 7 = false) ∧
    countUploads (uploadFileWithRetry envAlwaysMissing "https://u" "dist/a.bin" "v1.0"
        (Except.ok 7) 5).1 = 5 ∧
    (uploadFileWithRetry envAlwaysMissing "https://u" "dist/a.bin" "v1.0" (Except.ok 7) 5).2
      = Except.error ("Retry limit of " ++ toString 5 ++ " reached.\n") := by
  have hFail : ∀ n,
      lookupSeesCorrectSize (envAlwaysMissing.lookup n) (baseName "dist/a.bin") 7 = false :=
    fun n => rfl
  have h := uploadFileWithRetry_retry_bound envAlwaysMissing "https://u" "dist/a.bin" "v1.0"
    7 hFail
  exact ⟨hFail, h.1, h.2⟩

/-- C3 counterexample: on a run of `uploadFileWithRetry` that exhausts its
5 retries, the backoff sleeps are 2, 4, 8, 16 time units: the first sleep is
2 units, not 1 (the source doubles `waitTime` before sleeping, main.go lines
294-297), so the claimed sequence 1, 2, 4, 8, 16 is wrong. -/
theorem backoff_first_sleep_is_two :
    sleepsOf (uploadFileWithRetry envAlwaysMissing "https://u" "dist/a.bin" "v1.0"
        (Except.ok 7) 5).1 = [2, 4, 8, 16] ∧
    (sleepsOf (uploadFileWithRetry envAlwaysMissing "https://u" "dist/a.bin" "v1.0"
        (Except.ok 7) 5).1).head? = some 2 ∧
    ((2 : Nat) = 1 → False) :=
  ⟨rfl, rfl, by omega⟩

/-- C3 (amended): in `uploadFileWithRetry` (on an existing file) there is no
sleep before the first upload attempt, and the sleep before attempt `k`
(k ≥ 2) follows the sequence 2, 4, 8, 16, …: the first sleep is exactly
2 time units (the base of 1 is doubled before it is first applied) and each
subsequent sleep doubles the previous one; every sleep is applied
immediately before an upload attempt, never after it. -/
theorem uploadFileWithRetry_backoff_sequence (env : FileEnv) (url path tag : String)
    (sz : Int) (limit : Nat) :
    sleepsOf (uploadFileWithRetry env url path tag (Except.ok sz) limit).1
      = (List.range
            (countUploads (uploadFileWithRetry env url path tag (Except.ok sz) limit).1 - 1)).map
          (fun i => 2 ^ (i + 1)) ∧
    sleepsPrecedeUploads (uploadFileWithRetry env url path tag (Except.ok sz) limit).1
      = true := by
  constructor
  · have h := loop_sleeps_top env url (baseName path) sz tag limit (limit + 1) 1 (by omega)
    unfold uploadFileWithRetry
    simpa using h
  · have h := loop_sleeps_precede env url (baseName path) sz tag limit (limit + 1) 0 1
    unfold uploadFileWithRetry
    exact h

/-- C4: wherever two consecutive retry attempts of `uploadFileWithRetry` are
both preceded by sleeps, the later sleep is exactly double the earlier one. -/
theorem uploadFileWithRetry_backoff_doubling (env : FileEnv) (url path tag : String)
    (sz : Int) (limit k a b : Nat)
    (ha : (sleepsOf (uploadFileWithRetry env url path tag (Except.ok sz) limit).1)[k]?
      = some a)
    (hb : (sleepsOf (uploadFileWithRetry env url path tag (Except.ok sz) limit).1)[k + 1]?
      = some b) :
    b = 2 * a := by
  have h := loop_sleeps_top env url (baseName path) sz tag limit (limit + 1) 1 (by omega)
  unfold uploadFileWithRetry at ha hb
  rw [h, List.getElem?_map] at ha hb
  by_cases hk1 : k + 1
      < countUploads (uploadRetryLoop env url (baseName path) sz tag limit (limit + 1) 0 1).1 - 1
  · have hk : k
        < countUploads (uploadRetryLoop env url (baseName path) sz tag limit (limit + 1) 0 1).1
          - 1 := by omega
    rw [List.getElem?_range hk] at ha
    rw [List.getElem?_range hk1] at hb
    simp at ha hb
    subst ha hb
    ring
  · rw [List.getElem?_eq_none (by simpa using by omega)] at hb
    simp at hb

theorem uploadFileWithRetry_backoff_doubling_witness :
    (sleepsOf (uploadFileWithRetry envAlwaysMissing "https://u" "dist/a.bin" "v1.0"
        (Except.ok 7) 5).1)[0]? = some 2 ∧
    (sleepsOf (uploadFileWithRetry envAlwaysMissing "https://u" "dist/a.bin" "v1.0"
        (Except.ok 7) 5).1)[1]? = some 4 ∧
    (4 : Nat) = 2 * 2 := by
  refine ⟨rfl, rfl, ?_⟩
  exact uploadFileWithRetry_backoff_doubling envAlwaysMissing "https://u" "dist/a.bin"
    "v1.0" 7 5 0 2 4 rfl rfl

/-- C10: on an existing file, `uploadFileWithRetry` performs exactly one more
verify-or-clear lookup than upload attempts (the retry-limit check runs after
the verify step); consequently a file whose remote asset reaches the correct
size only through the fifth (last) upload still terminates as success, with
all 5 uploads performed, rather than as a retry-limit error. -/
theorem uploadFileWithRetry_lookup_count (env : FileEnv) (url path tag : String)
    (sz : Int) (limit : Nat) :
    (countFetches (uploadFileWithRetry env url path tag (Except.ok sz) limit).1
       = countUploads (uploadFileWithRetry env url path tag (Except.ok sz) limit).1 + 1)
    ∧ ((uploadFileWithRetry envCorrectAtFive "https://u" "dist/a.bin" "v1.0"
          (Except.ok 7) 5).2 = Except.ok ()
       ∧ countUploads (uploadFileWithRetry envCorrectAtFive "https://u" "dist/a.bin" "v1.0"
           (Except.ok 7) 5).1 = 5) := by
  refine ⟨?_, rfl, rfl⟩
  have h := loop_fetch_count env url (baseName path) sz tag limit (limit + 1) 0 1 (by omega)
  unfold uploadFileWithRetry
  exact h

@[simp] theorem countDeletes_replicate_fetch (n : Nat) (t : String) :
    countDeletes (List.replicate n (Event.fetchRelease t)) = 0 := by
  induction n with
  | zero => rfl
  | succ m ih => simpa [List.replicate] using ih

@[simp] theorem countUploads_replicate_fetch (n : Nat) (t : String) :
    countUploads (List.replicate n (Event.fetchRelease t)) = 0 := by
  induction n with
  | zero => rfl
  | succ m ih => simpa [List.replicate] using ih

/-- C5: when the resolver succeeds and, for every input file, the first
verify lookup observes an asset whose recorded size equals the file's size,
`publishRelease` performs zero asset DELETE calls and zero upload calls and
succeeds: each file's loop terminates as success at its first verify step,
before any DELETE or upload POST is issued. -/
theorem publishRelease_idempotent_second_run (penv : PublishEnv) (rel rel2 : Release)
    (evs0 : List Event) (files : List String)
    (hres : resolveRelease penv rel = (evs0, Except.ok rel2))
    (hcorrect : ∀ i f, files[i]? = some f → ∃ sz a,
        penv.statResult i = Except.ok sz ∧
        getAssetByFilename ((penv.fileEnv i).lookup 0) (baseName f) = Except.ok a ∧
        a.size = sz) :
    countDeletes (publishRelease penv rel files).1 = 0 ∧
    countUploads (publishRelease penv rel files).1 = 0 ∧
    (publishRelease penv rel files).2 = Except.ok () := by
  have hrc := resolveRelease_counts penv rel
  rw [hres] at hrc
  have hpf := processFiles_all_correct penv (splitUploadURL rel2.uploadURL) rel2.tagName
    files 0 (by intro i f hf; simpa using hcorrect i f hf)
  unfold publishRelease
  rw [hres]
  simp [hpf, hrc.1, hrc.2]

theorem publishRelease_idempotent_second_run_witness :
    resolveRelease penvAllCorrect (sampleRelease [])
      = ([Event.createRelease], Except.ok (sampleRelease [sampleAsset "a.bin" 7])) ∧
    (∀ i f, (["dist/a.bin"] : List String)[i]? = some f → ∃ sz a,
        penvAllCorrect.statResult i = Except.ok sz ∧
        getAssetByFilename ((penvAllCorrect.fileEnv i).lookup 0) (baseName f) = Except.ok a ∧
        a.size = sz) ∧
    countDeletes (publishRelease penvAllCorrect (sampleRelease []) ["dist/a.bin"]).1 = 0 ∧
    countUploads (publishRelease penvAllCorrect (sampleRelease []) ["dist/a.bin"]).1 = 0 ∧
    (publishRelease penvAllCorrect (sampleRelease []) ["dist/a.bin"]).2 = Except.ok () := by
  have hres : resolveRelease penvAllCorrect (sampleRelease [])
      = ([Event.createRelease], Except.ok (sampleRelease [sampleAsset "a.bin" 7])) := rfl
  have hcor : ∀ i f, (["dist/a.bin"] : List String)[i]? = some f → ∃ sz a,
      penvAllCorrect.statResult i = Except.ok sz ∧
      getAssetByFilename ((penvAllCorrect.fileEnv i).lookup 0) (baseName f) = Except.ok a ∧
      a.size = sz := by
    intro i f hf
    cases i with
    | zero =>
      simp at hf
      subst hf
      exact ⟨7, sampleAsset "a.bin" 7, rfl, rfl, rfl⟩
    | succ n => simp at hf
  have h := publishRelease_idempotent_second_run penvAllCorrect (sampleRelease [])
    (sampleRelease [sampleAsset "a.bin" 7]) [Event.createRelease] ["dist/a.bin"] hres hcor
  exact ⟨hres, hcor, h.1, h.2.1, h.2.2⟩

/-- C6 counterexample: with a successfully fetched and decoded release whose
asset list has no entry named `data.bin`, `getAssetByFilename` returns an
error value (`fmt.Errorf("could not find asset %s", ...)`) — not an
error-free not-found signal as the claim states — and a transport fault
yields an error of the same `generic` class, so the two outcomes are not
distinguishable by the kind of value returned. -/
theorem getAssetByFilename_notFound_counterexample :
    getAssetByFilename
        (LookupOutcome.release (sampleRelease [sampleAsset "a.bin" 7])) "data.bin"
      = Except.error (GoErr.generic "could not find asset data.bin") ∧
    getAssetByFilename (LookupOutcome.transportErr "boom") "data.bin"
      = Except.error (GoErr.generic "boom") :=
  ⟨rfl, rfl⟩

/-- C6 (amended): when the release fetch succeeds and no asset in its list
is named exactly `fn`, `getAssetByFilename` returns the error
`could not find asset <fn>`: absence is reported as an ordinary error value,
distinguishable from transport or decode failures only by its message
string, and the reconciliation loop treats all of these errors alike
(proceed to upload). -/
theorem getAssetByFilename_missing_is_error (r : Release) (fn : String)
    (h : r.assets.find? (fun a => a.name == fn) = none) :
    getAssetByFilename (LookupOutcome.release r) fn
      = Except.error (GoErr.generic ("could not find asset " ++ fn)) := by
  have hred : getAssetByFilename (LookupOutcome.release r) fn
      = match r.assets.find? (fun a => a.name == fn) with
        | some a => Except.ok a
        | none => Except.error (GoErr.generic ("could not find asset " ++ fn)) := rfl
  rw [hred, h]

theorem getAssetByFilename_missing_is_error_witness :
    (sampleRelease [sampleAsset "a.bin" 7]).assets.find?
        (fun a => a.name == "data.bin") = none ∧
    getAssetByFilename
        (LookupOutcome.release (sampleRelease [sampleAsset "a.bin" 7])) "data.bin"
      = Except.error (GoErr.generic ("could not find asset " ++ "data.bin")) :=
  ⟨rfl, getAssetByFilename_missing_is_error (sampleRelease [sampleAsset "a.bin" 7])
    "data.bin" rfl⟩

/-- C7: if the create-release POST fails and its response body contains the
`already_exists` marker, `publishRelease` falls back to fetching the release
by tag and (when that fetch decodes) proceeds through the per-file loop with
the fetched release's upload endpoint (normalized at its first brace); if
the create fails and the body lacks the marker, the run aborts fatally with
the creation error, touching no file. -/
theorem publishRelease_conflict_fallback (penv : PublishEnv) (rel rel2 : Release)
    (files : List String) (e : String) (hcreate : penv.createErr = some e) :
    (containsSubstr penv.createBody "already_exists" = true →
      penv.fetchErr = none →
      penv.decode penv.fetchBody = Except.ok rel2 →
      publishRelease penv rel files
        = ([Event.createRelease, Event.fetchRelease rel.tagName]
            ++ (processFiles penv (splitUploadURL rel2.uploadURL) rel2.tagName files 0).1,
           (processFiles penv (splitUploadURL rel2.uploadURL) rel2.tagName files 0).2))
    ∧ (containsSubstr penv.createBody "already_exists" = false →
      publishRelease penv rel files = ([Event.createRelease], Except.error e)) := by
  constructor
  · intro hmark hfe hdec
    unfold publishRelease resolveRelease
    simp [hcreate, hmark, hfe, hdec]
  · intro hmark
    unfold publishRelease resolveRelease
    simp [hcreate, hmark]

theorem publishRelease_conflict_fallback_witness :
    penvConflict.createErr = some "Github returned an error: 422 Unprocessable Entity" ∧
    containsSubstr penvConflict.createBody "already_exists" = true ∧
    publishRelease penvConflict (sampleRelease []) []
      = ([Event.createRelease, Event.fetchRelease "v1.0"], Except.ok ()) ∧
    penvOtherFailure.createErr = some "boom" ∧
    containsSubstr penvOtherFailure.createBody "already_exists" = false ∧
    publishRelease penvOtherFailure (sampleRelease []) []
      = ([Event.createRelease], Except.error "boom") := by
  refine ⟨rfl, by decide, ?_, rfl, by decide, ?_⟩
  · have h := (publishRelease_conflict_fallback penvConflict (sampleRelease [])
      (sampleRelease []) [] "Github returned an error: 422 Unprocessable Entity" rfl).1
      (by decide) rfl rfl
    exact h.trans rfl
  · exact (publishRelease_conflict_fallback penvOtherFailure (sampleRelease [])
      (sampleRelease []) [] "boom" rfl).2 (by decide)

/-- C8 counterexample: a JSON decode failure in the asset inspector is not
fatal.  Here the one file's iteration-0 release body fails to decode, yet
`publishRelease` does not abort: the loop proceeds to an upload attempt,
re-verifies, and the whole run terminates successfully — contradicting the
claim that every decode failure aborts the run immediately. -/
theorem inspector_decode_failure_not_fatal :
    (penvInspectorDecode.fileEnv 0).lookup 0
      = LookupOutcome.decodeErr "unexpected end of JSON input" ∧
    (publishRelease penvInspectorDecode (sampleRelease []) ["dist/a.bin"]).2
      = Except.ok () ∧
    countUploads (publishRelease penvInspectorDecode (sampleRelease []) ["dist/a.bin"]).1
      = 1 :=
  ⟨rfl, rfl, rfl⟩

/-- C8 (amended): a JSON decode failure in the release resolver is fatal —
`publishRelease` aborts at once with that error, before touching any file —
but a decode failure in the asset inspector's release fetch is an ordinary
error inside the reconciliation loop: that iteration proceeds to the upload
attempt and the loop continues (retries) rather than aborting the run. -/
theorem decode_failure_fatal_only_in_resolver (penv : PublishEnv) (rel : Release)
    (files : List String) (e : String) (env : FileEnv) (url fn : String) (sz : Int)
    (tag : String) (limit fuel : Nat) (msg : String) :
    (penv.createErr = none → penv.decode penv.createBody = Except.error e →
      publishRelease penv rel files = ([Event.createRelease], Except.error e))
    ∧ (env.lookup 0 = LookupOutcome.decodeErr msg → 0 < limit →
      uploadRetryLoop env url fn sz tag limit (fuel + 1) 0 1
        = ([Event.fetchRelease tag, Event.upload (url ++ "?name=" ++ fn) fn]
             ++ (uploadRetryLoop env url fn sz tag limit fuel 1 1).1,
           (uploadRetryLoop env url fn sz tag limit fuel 1 1).2)) := by
  constructor
  · intro hc hd
    unfold publishRelease resolveRelease
    simp [hc, hd]
  · intro hl hlim
    have hcor : lookupSeesCorrectSize (env.lookup 0) fn sz = false := by
      rw [hl]
      rfl
    have h := uploadRetryLoop_continue env url fn sz tag limit fuel 0 1 hcor hlim
    rw [h]
    have hstep : deleteAssetWithWrongFileSize (env.lookup 0) (env.deleteResult 0) tag fn sz
        = ([Event.fetchRelease tag], some (GoErr.generic msg)) := by
      rw [hl]
      rfl
    rw [hstep]
    simp

theorem decode_failure_fatal_only_in_resolver_witness :
    penvResolverDecode.createErr = none ∧
    penvResolverDecode.decode penvResolverDecode.createBody
      = Except.error "invalid character g" ∧
    publishRelease penvResolverDecode (sampleRelease []) ["dist/a.bin"]
      = ([Event.createRelease], Except.error "invalid character g") ∧
    envDecodeErrThenCorrect.lookup 0
      = LookupOutcome.decodeErr "unexpected end of JSON input" ∧
    uploadRetryLoop envDecodeErrThenCorrect "https://u" "a.bin" 7 "v1.0" 5 6 0 1
      = ([Event.fetchRelease "v1.0",
          Event.upload ("https://u" ++ "?name=" ++ "a.bin") "a.bin"]
           ++ (uploadRetryLoop envDecodeErrThenCorrect "https://u" "a.bin" 7 "v1.0" 5 5 1 1).1,
         (uploadRetryLoop envDecodeErrThenCorrect "https://u" "a.bin" 7 "v1.0" 5 5 1 1).2) := by
  refine ⟨rfl, rfl, ?_, rfl, ?_⟩
  · exact (decode_failure_fatal_only_in_resolver penvResolverDecode (sampleRelease [])
      ["dist/a.bin"] "invalid character g" envAlwaysMissing "" "" 0 "" 1 0 "").1 rfl rfl
  · exact (decode_failure_fatal_only_in_resolver penvResolverDecode (sampleRelease [])
      [] "" envDecodeErrThenCorrect "https://u" "a.bin" 7 "v1.0" 5 5
      "unexpected end of JSON input").2 rfl (by omega)

/-- C9: `publishRelease` reconciles the files strictly in the supplied
order; the first file whose reconciliation returns a fatal error aborts the
whole publication: every earlier file has been fully reconciled (its trace
appears, in order, before the failing file's), and no later file's
reconciliation is ever started (nothing of it appears in the trace). -/
theorem publishRelease_ordering_abort (penv : PublishEnv) (rel rel2 : Release)
    (evs0 : List Event) (pre : List String) (b : String) (post : List String) (e : String)
    (hres : resolveRelease penv rel = (evs0, Except.ok rel2))
    (hpre : ∀ i f, pre[i]? = some f →
      (reconcileFile penv (splitUploadURL rel2.uploadURL) rel2.tagName i f).2
        = Except.ok ())
    (hb : (reconcileFile penv (splitUploadURL rel2.uploadURL) rel2.tagName pre.length b).2
      = Except.error e) :
    publishRelease penv rel (pre ++ b :: post)
      = (evs0
          ++ tracesFrom penv (splitUploadURL rel2.uploadURL) rel2.tagName 0 pre
          ++ (reconcileFile penv (splitUploadURL rel2.uploadURL) rel2.tagName
              pre.length b).1,
         Except.error e) := by
  have hpf := processFiles_abort penv (splitUploadURL rel2.uploadURL) rel2.tagName pre 0
    b post e (by intro i f hf; simpa using hpre i f hf) (by simpa using hb)
  unfold publishRelease
  rw [hres]
  simp [hpf]

theorem publishRelease_ordering_abort_witness :
    resolveRelease penvOrdering (sampleRelease [])
      = ([Event.createRelease], Except.ok (sampleRelease [])) ∧
    (∀ i f, (["a.bin"] : List String)[i]? = some f →
      (reconcileFile penvOrdering (splitUploadURL (sampleRelease []).uploadURL)
          (sampleRelease []).tagName i f).2 = Except.ok ()) ∧
    (reconcileFile penvOrdering (splitUploadURL (sampleRelease []).uploadURL)
        (sampleRelease []).tagName 1 "b.bin").2
      = Except.error ("Retry limit of " ++ toString 5 ++ " reached.\n") ∧
    publishRelease penvOrdering (sampleRelease []) (["a.bin"] ++ "b.bin" :: ["c.bin"])
      = ([Event.createRelease]
          ++ tracesFrom penvOrdering (splitUploadURL (sampleRelease []).uploadURL)
              (sampleRelease []).tagName 0 ["a.bin"]
          ++ (reconcileFile penvOrdering (splitUploadURL (sampleRelease []).uploadURL)
              (sampleRelease []).tagName 1 "b.bin").1,
         Except.error ("Retry limit of " ++ toString 5 ++ " reached.\n")) := by
  have hres : resolveRelease penvOrdering (sampleRelease [])
      = ([Event.createRelease], Except.ok (sampleRelease [])) := rfl
  have hpre : ∀ i f, (["a.bin"] : List String)[i]? = some f →
      (reconcileFile penvOrdering (splitUploadURL (sampleRelease []).uploadURL)
          (sampleRelease []).tagName i f).2 = Except.ok () := by
    intro i f hf
    cases i with
    | zero =>
      simp at hf
      subst hf
      rfl
    | succ n => simp at hf
  have hb : (reconcileFile penvOrdering (splitUploadURL (sampleRelease []).uploadURL)
      (sampleRelease []).tagName ([("a.bin" : String)]).length "b.bin").2
      = Except.error ("Retry limit of " ++ toString 5 ++ " reached.\n") := rfl
  exact ⟨hres, hpre, hb,
    publishRelease_ordering_abort penvOrdering (sampleRelease []) (sampleRelease [])
      [Event.createRelease] ["a.bin"] "b.bin" ["c.bin"]
      ("Retry limit of " ++ toString 5 ++ " reached.\n") hres hpre hb⟩
